import Mathlib

/-!
Shallow embedding of `finance_tracker.py` (personal finance tracker):
calendar dates (proleptic Gregorian, as Python `datetime.date`), the
multi-format date parser, transaction validation and storage, category
aggregation and weekly (Monday-Sunday) bucketing.
Monetary values are modelled as rationals; `round2` models Python's
`round(x, 2)` (tie-breaking differs from binary-float banker's rounding
only at exact half-cent ties, which no property here touches).
Python string primitives (`strip`, `lower`, field splitting) are
modelled structurally over the character list of a string.
-/

/-- Gregorian leap-year test, as in Python's `calendar.isleap`. -/
def isLeap (y : ℕ) : Bool :=
  (y % 4 == 0 && y % 100 != 0) || y % 400 == 0

/-- Number of days in month `m` of year `y` (months are 1-based). -/
def daysInMonth (y m : ℕ) : ℕ :=
  if m = 2 then (if isLeap y then 29 else 28)
  else if m = 4 ∨ m = 6 ∨ m = 9 ∨ m = 11 then 30
  else 31

/-- Days in year `y` strictly before month `m`. -/
def daysBeforeMonth (y m : ℕ) : ℕ :=
  ((List.range (m - 1)).map (fun i => daysInMonth y (i + 1))).sum

/-- Days before January 1 of year `y` in the proleptic Gregorian calendar. -/
def daysBeforeYear (y : ℕ) : ℕ :=
  365 * (y - 1) + (y - 1) / 4 - (y - 1) / 100 + (y - 1) / 400

/-- A calendar date, as produced by Python's `datetime.date`. -/
structure Date where
  year : ℕ
  month : ℕ
  day : ℕ
deriving DecidableEq, Repr

/-- Python's `date.toordinal`: day 1 is January 1 of year 1. -/
def Date.toOrdinal (d : Date) : ℤ :=
  ((daysBeforeYear d.year + daysBeforeMonth d.year d.month + d.day : ℕ) : ℤ)

/-- Python's `str.strip` on a character list: drop whitespace at both ends. -/
def stripChars (l : List Char) : List Char :=
  ((l.dropWhile Char.isWhitespace).reverse.dropWhile Char.isWhitespace).reverse

/-- Python's `str.strip`. -/
def pyStrip (s : String) : String :=
  ⟨stripChars s.data⟩

/-- Python's `str.lower` (ASCII letters, as used for transaction kinds). -/
def pyLower (s : String) : String :=
  ⟨s.data.map Char.toLower⟩

/-- Split a character list at every occurrence of `sep`. -/
def splitOnSep (sep : Char) : List Char → List (List Char)
  | [] => [[]]
  | c :: cs =>
    if c == sep then [] :: splitOnSep sep cs
    else
      match splitOnSep sep cs with
      | [] => [[c]]
      | h :: t => (c :: h) :: t

/-- Decimal value of a digit list. -/
def digitsVal (l : List Char) : ℕ :=
  l.foldl (fun n c => 10 * n + (c.toNat - 48)) 0

/-- The `strptime` `%Y` field: exactly four digits (CPython's pattern
for `Y` is four repetitions of a digit class, nothing shorter or
longer). -/
def parseYearField (l : List Char) : Option ℕ :=
  if l.length = 4 ∧ l.all Char.isDigit then
    some (digitsVal l)
  else none

/-- The `strptime` `%m` field: one or two digits (CPython's month
alternatives cover exactly the 1- and 2-digit spellings; values outside
1..12 are rejected with the calendar bounds below, matching the
pattern's rejections). -/
def parseMonthField (l : List Char) : Option ℕ :=
  if 1 ≤ l.length ∧ l.length ≤ 2 ∧ l.all Char.isDigit then
    some (digitsVal l)
  else none

/-- The `strptime` `%d` field: one or two digits, or a single space
followed by a nonzero digit (the space-padded day CPython also
accepts); values outside the month's range are rejected with the
calendar bounds below, matching the pattern's rejections. -/
def parseDayField (l : List Char) : Option ℕ :=
  if 1 ≤ l.length ∧ l.length ≤ 2 ∧ l.all Char.isDigit then
    some (digitsVal l)
  else
    match l with
    | [' ', c] => if c.isDigit && c != '0' then some (c.toNat - 48) else none
    | _ => none

/-- One `datetime.strptime` attempt for a three-field date pattern with
separator `sep`; `yearFirst` distinguishes `Y-M-D` from `D-M-Y` field
order (the month is the middle field in all four source formats). The
fields between separators are the maximal separator-free runs, exactly
what the anchored field patterns can consume ahead of each literal
separator. Returns `none` when the text does not match or
`datetime.date` rejects the numbers (year 0, day beyond the month). -/
def tryFormat (yearFirst : Bool) (sep : Char) (s : String) : Option Date :=
  match splitOnSep sep s.data with
  | [p1, p2, p3] =>
    let ys := if yearFirst then p1 else p3
    let ds := if yearFirst then p3 else p1
    match parseYearField ys, parseMonthField p2, parseDayField ds with
    | some y, some m, some d =>
      if 1 ≤ y ∧ 1 ≤ m ∧ m ≤ 12 ∧ 1 ≤ d ∧ d ≤ daysInMonth y m then
        some ⟨y, m, d⟩
      else none
    | _, _, _ => none
  | _ => none

/-- The error message raised by `parse_date` in the source. -/
def dateErrorMessage (s : String) : String :=
  "Unsupported date format: " ++ s ++ ". Use YYYY-MM-DD"

/-- `parse_date(s)`: tries `%Y-%m-%d`, `%d-%m-%Y`, `%d/%m/%Y`, `%Y/%m/%d`
in that order, returning the first successful parse, and raises a
`ValueError` carrying the offending text when none matches. -/
def parse_date (s : String) : Except String Date :=
  match tryFormat true '-' s with
  | some d => .ok d
  | none =>
    match tryFormat false '-' s with
    | some d => .ok d
    | none =>
      match tryFormat false '/' s with
      | some d => .ok d
      | none =>
        match tryFormat true '/' s with
        | some d => .ok d
        | none => .error (dateErrorMessage s)

/-- Python's `round(q, 2)`. -/
def round2 (q : ℚ) : ℚ :=
  ((round (q * 100) : ℤ) : ℚ) / 100

/-- A value with at most two decimal digits (a whole number of cents). -/
def IsCents (q : ℚ) : Prop :=
  ∃ n : ℤ, q = (n : ℚ) / 100

/-- A loaded transaction record (one row of `load_transactions_df`):
the date as its proleptic Gregorian ordinal, `type` (here `kind`),
`amount`, `category`, `description`. -/
structure Record where
  date : ℤ
  kind : String
  amount : ℚ
  category : String
  description : String
deriving DecidableEq, Repr

/-- Sum of the `amount` column of a record list. -/
def sumAmount (l : List Record) : ℚ :=
  (l.map Record.amount).sum

/-- Python truthiness of an optional string argument
(`None` and `""` are falsy). -/
def truthyStr : Option String → Bool
  | none => false
  | some s => !(s == "")

/-- Python truthiness of an optional integer argument
(`None` and `0` are falsy). -/
def truthyNat : Option ℕ → Bool
  | none => false
  | some n => !(n == 0)

/-- `df = df[df["date"] >= sd]` guarded by `if start_date:`; fails when
the bound is given but unparseable. -/
def applyStartFilter (records : List Record) (start_date : Option String) :
    Except String (List Record) :=
  match start_date with
  | none => .ok records
  | some s =>
    if s == "" then .ok records
    else
      match parse_date s with
      | .error e => .error e
      | .ok d => .ok (records.filter (fun r => decide (d.toOrdinal ≤ r.date)))

/-- `df = df[df["date"] <= ed]` guarded by `if end_date:`; fails when
the bound is given but unparseable. -/
def applyEndFilter (records : List Record) (end_date : Option String) :
    Except String (List Record) :=
  match end_date with
  | none => .ok records
  | some s =>
    if s == "" then .ok records
    else
      match parse_date s with
      | .error e => .error e
      | .ok d => .ok (records.filter (fun r => decide (r.date ≤ d.toOrdinal)))

/-- `groupby("category")["amount"].sum()`: one `(category, total)` pair
per distinct category of `l`. Key enumeration order only influences the
relative order of equal totals after the subsequent value sort, which
pandas leaves unspecified (`sort_values` default `kind='quicksort'`). -/
def groupTotals (l : List Record) : List (String × ℚ) :=
  ((l.map Record.category).dedup).map
    (fun c => (c, sumAmount (l.filter (fun r => r.category == c))))

/-- Comparison used by `sort_values(ascending=False)` on the totals. -/
def byAmountDesc (a b : String × ℚ) : Prop :=
  b.2 ≤ a.2

instance : DecidableRel byAmountDesc :=
  fun a b => inferInstanceAs (Decidable (b.2 ≤ a.2))

instance : IsTotal (String × ℚ) byAmountDesc :=
  ⟨fun a b => le_total b.2 a.2⟩

instance : IsTrans (String × ℚ) byAmountDesc :=
  ⟨fun _ _ _ h1 h2 => le_trans h2 h1⟩

/-- `exp.sort_values(ascending=False)`: descending by total amount. -/
def sortDesc (l : List (String × ℚ)) : List (String × ℚ) :=
  List.insertionSort byAmountDesc l

/-- `category_summary(start_date, end_date, top_n)` over an already
loaded record list: empty mapping on an empty store; otherwise filter by
the truthy date bounds, keep `type == "expense"`, group by category, sum
amounts, sort descending by total, and truncate to `top_n` entries when
`top_n` is truthy. Errors propagate from parsing a non-empty bound. -/
def category_summary (records : List Record)
    (start_date end_date : Option String) (top_n : Option ℕ) :
    Except String (List (String × ℚ)) :=
  if records.isEmpty then .ok []
  else
    match applyStartFilter records start_date with
    | .error e => .error e
    | .ok r1 =>
      match applyEndFilter r1 end_date with
      | .error e => .error e
      | .ok r2 =>
        let exp := sortDesc (groupTotals (r2.filter (fun r => r.kind == "expense")))
        .ok (if truthyNat top_n then exp.take ((top_n.getD 0)) else exp)

/-- Python's `date.weekday()`: 0 for Monday, through 6 for Sunday,
computed from the proleptic Gregorian ordinal (day 1 is a Monday). -/
def pyWeekday (o : ℤ) : ℤ :=
  (o + 6) % 7

/-- `week_bounds_for(dt)`: the Monday and Sunday of the week of `dt`. -/
def week_bounds_for (o : ℤ) : ℤ × ℤ :=
  (o - pyWeekday o, o - pyWeekday o + 6)

/-- One weekly summary row. -/
structure WeeklySummary where
  week_start : ℤ
  week_end : ℤ
  income : ℚ
  expense : ℚ
  net : ℚ
deriving DecidableEq, Repr

/-- The bucket membership mask `(df["date"] >= week_start) & (df["date"] <= week_end)`. -/
def inWeek (week_start : ℤ) (r : Record) : Bool :=
  decide (week_start ≤ r.date) && decide (r.date ≤ week_start + 6)

/-- One iteration of the `weekly_summaries` loop: the bucket starting at
`week_start`, summing income and expense over records in the bucket
(`0.0` directly when the store is empty, exactly as the source). -/
def weekEntry (records : List Record) (week_start : ℤ) : WeeklySummary :=
  let income : ℚ :=
    if records.isEmpty then 0
    else sumAmount ((records.filter (inWeek week_start)).filter (fun r => r.kind == "income"))
  let expense : ℚ :=
    if records.isEmpty then 0
    else sumAmount ((records.filter (inWeek week_start)).filter (fun r => r.kind == "expense"))
  { week_start := week_start
    week_end := week_start + 6
    income := round2 income
    expense := round2 expense
    net := round2 (income - expense) }

/-- `weekly_summaries(weeks)` over a loaded record list, with `today`
passed explicitly (the source reads `date.today()`): `weeks` buckets
walking backward one week at a time from the Monday of today's week. -/
def weekly_summaries (records : List Record) (weeks : ℕ) (today : ℤ) :
    List WeeklySummary :=
  let current_monday := today - pyWeekday today
  (List.range weeks).map (fun i : ℕ => weekEntry records (current_monday - 7 * (i : ℤ)))

/-- The result of Python's `float(amount)`: either a (finite) numeric
value or a `ValueError` for non-numeric text. -/
inductive AmountInput where
  | numeric (q : ℚ)
  | nonNumeric
deriving DecidableEq, Repr

/-- The `ValueError` cases raised by `add_transaction`. -/
inductive TxError where
  | invalidDate
  | invalidKind
  | invalidAmount
deriving DecidableEq, Repr

/-- A stored CSV row (the `row` dict written by `add_transaction`; the
date is stored via `strftime("%Y-%m-%d")`, which `parse_date` inverts,
so we keep the calendar date itself). -/
structure Row where
  date : Date
  kind : String
  amount : ℚ
  category : String
  description : String
deriving DecidableEq, Repr

/-- The transaction file: `none` when `transactions.csv` does not exist,
otherwise the list of its data rows (the header is implicit). -/
def TxFile := Option (List Row)

/-- `ensure_csv_exists()`: creates the file with only a header when
missing, otherwise leaves it untouched; returns the file's rows. -/
def ensure_csv_exists : TxFile → List Row
  | none => []
  | some rows => rows

/-- `add_transaction(date, type, amount, category, description)`:
ensures the file exists, parses the date, normalizes and validates the
kind, converts the amount, then appends one assembled row and rewrites
the file. Returns the resulting file contents and either the appended
row or the `ValueError` raised; the rows are untouched on error. -/
def add_transaction (file : TxFile) (tx_date tx_type : String)
    (amount : AmountInput) (category : String) (description : String) :
    List Row × Except TxError Row :=
  let rows := ensure_csv_exists file
  match parse_date tx_date with
  | .error _ => (rows, .error .invalidDate)
  | .ok d =>
    let tx_type_l := pyLower (pyStrip tx_type)
    if tx_type_l = "income" ∨ tx_type_l = "expense" then
      match amount with
      | .nonNumeric => (rows, .error .invalidAmount)
      | .numeric q =>
        let row : Row :=
          { date := d
            kind := tx_type_l
            amount := round2 q
            category := if pyStrip category = "" then "uncategorized" else pyStrip category
            description := pyStrip description }
        (rows ++ [row], .ok row)
    else (rows, .error .invalidKind)

/-- The record collection of the category-summary acceptance example. -/
def exampleRecords : List Record :=
  [ { date := 739252, kind := "expense", amount := 100, category := "Food", description := "" }
  , { date := 739253, kind := "expense", amount := 50, category := "Food", description := "" }
  , { date := 739254, kind := "expense", amount := 30, category := "Travel", description := "" }
  , { date := 739255, kind := "income", amount := 1000, category := "Salary", description := "" } ]

theorem sumAmount_nil : sumAmount [] = 0 := rfl

theorem sumAmount_cons (r : Record) (l : List Record) :
    sumAmount (r :: l) = r.amount + sumAmount l := by
  simp [sumAmount]

/-- Splitting a sum along a Boolean predicate. -/
theorem sumAmount_filter_not (p : Record → Bool) (l : List Record) :
    sumAmount (l.filter p) + sumAmount (l.filter (fun r => !(p r))) = sumAmount l := by
  induction l with
  | nil => simp [sumAmount]
  | cons r t ih =>
    by_cases h : p r
    · simp only [List.filter_cons, h, Bool.not_true, if_pos, if_neg, Bool.false_eq_true,
        not_false_iff, sumAmount_cons, ite_true, ite_false]
      linarith [ih]
    · simp only [List.filter_cons, h, Bool.not_false, Bool.false_eq_true, if_neg, if_pos,
        not_false_iff, sumAmount_cons, ite_true, ite_false]
      linarith [ih]

/-- Filtering by `q` is unaffected by a previous filter by a weaker `p`. -/
theorem filter_filter_of_imp (p q : Record → Bool) (l : List Record)
    (h : ∀ r, q r = true → p r = true) :
    (l.filter p).filter q = l.filter q := by
  induction l with
  | nil => rfl
  | cons r t ih =>
    by_cases hq : q r
    · have hp := h r hq
      simp [List.filter_cons, hp, hq, ih]
    · by_cases hp : p r <;> simp [List.filter_cons, hp, hq, ih]

/-- Summing the per-key filtered totals over a duplicate-free key list
that covers every record recovers the total sum. -/
theorem sum_over_keys (keys : List String) :
    ∀ l : List Record, keys.Nodup → (∀ r ∈ l, r.category ∈ keys) →
      ((keys.map (fun c => sumAmount (l.filter (fun r => r.category == c)))).sum) = sumAmount l := by
  induction keys with
  | nil =>
    intro l _ hall
    have hl : l = [] := List.eq_nil_iff_forall_not_mem.mpr (fun r hr => by simpa using hall r hr)
    subst hl
    simp [sumAmount]
  | cons c keys ih =>
    intro l hnd hall
    have hnotin : c ∉ keys := (List.nodup_cons.mp hnd).1
    have htail : keys.Nodup := (List.nodup_cons.mp hnd).2
    have hmap : keys.map (fun c2 => sumAmount (l.filter (fun r => r.category == c2)))
        = keys.map (fun c2 => sumAmount
            ((l.filter (fun r => !(r.category == c))).filter (fun r => r.category == c2))) := by
      refine List.map_congr_left ?_
      intro c2 hc2
      have hne : ∀ r : Record, (r.category == c2) = true → (!(r.category == c)) = true := by
        intro r hr
        have h1 : r.category = c2 := by simpa using hr
        have h2 : c2 ≠ c := fun e => hnotin (e ▸ hc2)
        simp [h1, h2]
      rw [filter_filter_of_imp _ _ l hne]
    have hall2 : ∀ r ∈ l.filter (fun r => !(r.category == c)), r.category ∈ keys := by
      intro r hr
      rcases List.mem_filter.mp hr with ⟨hrl, hrc⟩
      have : r.category ≠ c := by simpa using hrc
      rcases List.mem_cons.mp (hall r hrl) with h | h
      · exact absurd h this
      · exact h
    calc sumAmount (l.filter (fun r => r.category == c))
          + (keys.map (fun c2 => sumAmount (l.filter (fun r => r.category == c2)))).sum
        = sumAmount (l.filter (fun r => r.category == c))
          + sumAmount (l.filter (fun r => !(r.category == c))) := by
          rw [hmap, ih (l.filter (fun r => !(r.category == c))) htail hall2]
      _ = sumAmount l := sumAmount_filter_not _ l

/-- The grouped totals sum to the total of the grouped list. -/
theorem groupTotals_sum (l : List Record) :
    ((groupTotals l).map Prod.snd).sum = sumAmount l := by
  unfold groupTotals
  rw [List.map_map]
  exact sum_over_keys _ l (List.nodup_dedup _)
    (fun r hr => List.mem_dedup.mpr (List.mem_map_of_mem _ hr))

/-- Every pair of the grouped totals carries the per-category sum. -/
theorem groupTotals_mem_snd {l : List Record} {c : String} {q : ℚ}
    (h : (c, q) ∈ groupTotals l) :
    q = sumAmount (l.filter (fun r => r.category == c)) := by
  unfold groupTotals at h
  rcases List.mem_map.mp h with ⟨c2, _, heq⟩
  rw [Prod.ext_iff] at heq
  obtain ⟨h1, h2⟩ := heq
  simp only at h1 h2
  subst h1
  exact h2.symm

/-- The keys of the grouped totals are exactly the occurring categories. -/
theorem groupTotals_mem_key {l : List Record} {c : String} :
    (∃ q, (c, q) ∈ groupTotals l) ↔ ∃ r ∈ l, r.category = c := by
  unfold groupTotals
  constructor
  · rintro ⟨q, hq⟩
    rcases List.mem_map.mp hq with ⟨c2, hc2, heq⟩
    rw [Prod.ext_iff] at heq
    obtain ⟨h1, _⟩ := heq
    simp only at h1
    subst h1
    rcases List.mem_map.mp (List.mem_dedup.mp hc2) with ⟨r, hr, hrc⟩
    exact ⟨r, hr, hrc⟩
  · rintro ⟨r, hr, rfl⟩
    exact ⟨_, List.mem_map_of_mem _ (List.mem_dedup.mpr (List.mem_map_of_mem _ hr))⟩

theorem sortDesc_perm (l : List (String × ℚ)) : List.Perm (sortDesc l) l :=
  List.perm_insertionSort _ l

theorem sortDesc_sorted (l : List (String × ℚ)) :
    List.Sorted byAmountDesc (sortDesc l) :=
  List.sorted_insertionSort _ l

theorem sortDesc_mem {x : String × ℚ} {l : List (String × ℚ)} :
    x ∈ sortDesc l ↔ x ∈ l :=
  (sortDesc_perm l).mem_iff

theorem sortDesc_snd_sum (l : List (String × ℚ)) :
    ((sortDesc l).map Prod.snd).sum = (l.map Prod.snd).sum :=
  ((sortDesc_perm l).map Prod.snd).sum_eq

theorem round2_zero : round2 0 = 0 := by
  simp [round2]

theorem isCents_round2 (q : ℚ) : IsCents (round2 q) :=
  ⟨round (q * 100), rfl⟩

/-- `weekEntry` written without the redundant empty-store special case
(an empty store has empty bucket filters, so the sums are `0` anyway). -/
theorem weekEntry_eq (records : List Record) (ws : ℤ) :
    weekEntry records ws =
      { week_start := ws
        week_end := ws + 6
        income := round2 (sumAmount
          ((records.filter (inWeek ws)).filter (fun r => r.kind == "income")))
        expense := round2 (sumAmount
          ((records.filter (inWeek ws)).filter (fun r => r.kind == "expense")))
        net := round2 (sumAmount
            ((records.filter (inWeek ws)).filter (fun r => r.kind == "income"))
          - sumAmount
            ((records.filter (inWeek ws)).filter (fun r => r.kind == "expense"))) } := by
  unfold weekEntry
  rcases records with _ | ⟨r, t⟩
  · simp [sumAmount]
  · simp

theorem weekly_summaries_length (records : List Record) (weeks : ℕ) (today : ℤ) :
    (weekly_summaries records weeks today).length = weeks := by
  unfold weekly_summaries
  rw [List.length_map, List.length_range]

theorem weekly_getElem (records : List Record) (weeks : ℕ) (today : ℤ)
    (i : ℕ) (h : i < weeks) :
    (weekly_summaries records weeks today)[i]? =
      some (weekEntry records ((today - pyWeekday today) - 7 * (i : ℤ))) := by
  unfold weekly_summaries
  rw [List.getElem?_map, List.getElem?_range h]
  rfl

theorem weekEntry_week_start (records : List Record) (ws : ℤ) :
    (weekEntry records ws).week_start = ws := rfl

theorem weekEntry_week_end (records : List Record) (ws : ℤ) :
    (weekEntry records ws).week_end = ws + 6 := rfl

/-- C3: `parse_date` tries the formats `YYYY-MM-DD`, `DD-MM-YYYY`,
`DD/MM/YYYY`, `YYYY/MM/DD` in that fixed priority order and returns the
calendar date of the first format that parses; it raises an error
carrying the offending text exactly when no format matches;
`"2025/01/31"` parses to the calendar date 2025-01-31; and, matching
`strptime`, a space-padded day is accepted while years shorter than
four digits are not. -/
theorem parse_date_priority_spec :
    (∀ s d, tryFormat true '-' s = some d → parse_date s = .ok d)
  ∧ (∀ s d, tryFormat true '-' s = none → tryFormat false '-' s = some d →
      parse_date s = .ok d)
  ∧ (∀ s d, tryFormat true '-' s = none → tryFormat false '-' s = none →
      tryFormat false '/' s = some d → parse_date s = .ok d)
  ∧ (∀ s d, tryFormat true '-' s = none → tryFormat false '-' s = none →
      tryFormat false '/' s = none → tryFormat true '/' s = some d →
      parse_date s = .ok d)
  ∧ (∀ s, parse_date s = .error (dateErrorMessage s) ↔
      (tryFormat true '-' s = none ∧ tryFormat false '-' s = none ∧
       tryFormat false '/' s = none ∧ tryFormat true '/' s = none))
  ∧ parse_date "2025/01/31" = .ok ⟨2025, 1, 31⟩
  ∧ parse_date "2025-01- 5" = .ok ⟨2025, 1, 5⟩
  ∧ parse_date "999-12-31" = .error (dateErrorMessage "999-12-31")
  ∧ parse_date "25-12-31" = .error (dateErrorMessage "25-12-31") := by
  refine ⟨?_, ?_, ?_, ?_, ?_, rfl, rfl, rfl, rfl⟩
  · intro s d h1
    simp [parse_date, h1]
  · intro s d h1 h2
    simp [parse_date, h1, h2]
  · intro s d h1 h2 h3
    simp [parse_date, h1, h2, h3]
  · intro s d h1 h2 h3 h4
    simp [parse_date, h1, h2, h3, h4]
  · intro s
    rcases h1 : tryFormat true '-' s with _ | d1 <;>
      rcases h2 : tryFormat false '-' s with _ | d2 <;>
        rcases h3 : tryFormat false '/' s with _ | d3 <;>
          rcases h4 : tryFormat true '/' s with _ | d4 <;>
            simp [parse_date, h1, h2, h3, h4]

/-- Witness for C3: the priority chain evaluated at concrete inputs. -/
theorem parse_date_priority_spec_witness :
    parse_date "2025-06-12" = .ok ⟨2025, 6, 12⟩
  ∧ parse_date "2025/01/31" = .ok ⟨2025, 1, 31⟩ :=
  ⟨parse_date_priority_spec.1 "2025-06-12" ⟨2025, 6, 12⟩ (by decide),
   parse_date_priority_spec.2.2.2.1 "2025/01/31" ⟨2025, 1, 31⟩
     (by decide) (by decide) (by decide) (by decide)⟩

/-- C6: `week_bounds_for` returns `(weekStart, weekEnd)` with
`weekStart = d - weekday d` (the Monday of `d`'s week; Monday has
weekday index 0) and `weekEnd = weekStart + 6`; consequently
`weekly_summaries` with one week and today = 2025-06-12 (a Thursday,
weekday 3) yields the single bucket 2025-06-09 .. 2025-06-15. -/
theorem week_bounds_spec :
    (∀ o : ℤ, week_bounds_for o = (o - pyWeekday o, o - pyWeekday o + 6)
      ∧ (week_bounds_for o).1 ≤ o
      ∧ o ≤ (week_bounds_for o).2
      ∧ (week_bounds_for o).2 = (week_bounds_for o).1 + 6
      ∧ pyWeekday (week_bounds_for o).1 = 0)
  ∧ pyWeekday (Date.toOrdinal ⟨2025, 6, 12⟩) = 3
  ∧ (∀ records : List Record,
      (weekly_summaries records 1 (Date.toOrdinal ⟨2025, 6, 12⟩)).map
          (fun s => (s.week_start, s.week_end)) =
        [(Date.toOrdinal ⟨2025, 6, 9⟩, Date.toOrdinal ⟨2025, 6, 15⟩)]) := by
  refine ⟨?_, by decide, ?_⟩
  · intro o
    refine ⟨rfl, ?_, ?_, rfl, ?_⟩ <;>
      simp only [week_bounds_for, pyWeekday] <;> omega
  · intro records
    have h1 : List.range 1 = [0] := rfl
    simp only [weekly_summaries, h1, List.map_cons, List.map_nil,
      weekEntry_week_start, weekEntry_week_end]
    decide

/-- Case analysis of `add_transaction`: it either appends exactly the
validated row, or fails leaving the rows as `ensure_csv_exists` made
them. -/
theorem add_transaction_cases (file : TxFile) (td tt : String)
    (amt : AmountInput) (cat desc : String) :
    (∃ d, parse_date td = .ok d ∧
      (pyLower (pyStrip tt) = "income" ∨ pyLower (pyStrip tt) = "expense") ∧
      ∃ q, amt = .numeric q ∧
        add_transaction file td tt amt cat desc =
          (ensure_csv_exists file ++
            [⟨d, pyLower (pyStrip tt), round2 q,
              if pyStrip cat = "" then "uncategorized" else pyStrip cat,
              pyStrip desc⟩],
           .ok ⟨d, pyLower (pyStrip tt), round2 q,
              if pyStrip cat = "" then "uncategorized" else pyStrip cat,
              pyStrip desc⟩))
  ∨ (∃ e, add_transaction file td tt amt cat desc = (ensure_csv_exists file, .error e)) := by
  unfold add_transaction
  rcases hp : parse_date td with e | d
  · exact Or.inr ⟨.invalidDate, rfl⟩
  · simp only []
    by_cases hk : (pyLower (pyStrip tt) = "income" ∨ pyLower (pyStrip tt) = "expense")
    · rw [if_pos hk]
      rcases amt with q | _
      · exact Or.inl ⟨d, rfl, hk, q, rfl, rfl⟩
      · exact Or.inr ⟨.invalidAmount, rfl⟩
    · rw [if_neg hk]
      exact Or.inr ⟨.invalidKind, rfl⟩

/-- C1 counterexample: `add_transaction` accepts a negative amount — no
non-negativity (or finiteness) validation exists — so with amount `-5`
the transaction is stored with a negative amount instead of raising. -/
theorem add_transaction_negative_amount :
    (add_transaction (some []) "2025-01-31" "expense" (.numeric (-5)) "Food" "note").2 =
      .ok { date := ⟨2025, 1, 31⟩, kind := "expense", amount := -5,
            category := "Food", description := "note" }
    ∧ ((-5 : ℚ) < 0) := by
  constructor
  · have h0 : (add_transaction (some []) "2025-01-31" "expense" (.numeric (-5)) "Food" "note").2 =
        .ok { date := ⟨2025, 1, 31⟩, kind := "expense", amount := round2 (-5),
              category := "Food", description := "note" } := rfl
    rw [h0]
    norm_num [round2, round_eq]
  · norm_num

/-- C1 (amended): a kind outside {income, expense} after strip/lower
normalization raises a `ValueError` on every input (the kind-check
`ValueError` itself whenever the date parses; the date's `ValueError`
pre-empts it otherwise); a non-numeric amount raises a `ValueError`; on
success the stored row has the kind lower-cased, the amount rounded to
2 decimal digits (no finiteness or sign check is performed), the
category defaulted to "uncategorized" when blank, and the description
stripped; kind "EXPENSE" is stored as "expense". -/
theorem add_transaction_validation_spec :
    (∀ file td tt amt cat desc, pyLower (pyStrip tt) ≠ "income" →
        pyLower (pyStrip tt) ≠ "expense" →
        ∃ e, (add_transaction file td tt amt cat desc).2 = .error e)
  ∧ (∀ file td tt amt cat desc d, parse_date td = .ok d →
        pyLower (pyStrip tt) ≠ "income" → pyLower (pyStrip tt) ≠ "expense" →
        (add_transaction file td tt amt cat desc).2 = .error .invalidKind)
  ∧ (∀ file td tt cat desc d, parse_date td = .ok d →
        (pyLower (pyStrip tt) = "income" ∨ pyLower (pyStrip tt) = "expense") →
        (add_transaction file td tt .nonNumeric cat desc).2 = .error .invalidAmount)
  ∧ (∀ file td tt q cat desc d, parse_date td = .ok d →
        (pyLower (pyStrip tt) = "income" ∨ pyLower (pyStrip tt) = "expense") →
        (add_transaction file td tt (.numeric q) cat desc).2 =
          .ok { date := d
                kind := pyLower (pyStrip tt)
                amount := round2 q
                category := if pyStrip cat = "" then "uncategorized" else pyStrip cat
                description := pyStrip desc }
        ∧ IsCents (round2 q))
  ∧ (add_transaction (some []) "2025-01-31" "EXPENSE" (.numeric 10) "Food" " note ").2 =
      .ok { date := ⟨2025, 1, 31⟩, kind := "expense", amount := 10,
            category := "Food", description := "note" } := by
  refine ⟨?_, ?_, ?_, ?_, ?_⟩
  · intro file td tt amt cat desc h1 h2
    rcases hp : parse_date td with e | d
    · exact ⟨.invalidDate, by simp [add_transaction, hp]⟩
    · exact ⟨.invalidKind, by simp [add_transaction, hp, h1, h2]⟩
  · intro file td tt amt cat desc d hd h1 h2
    simp [add_transaction, hd, h1, h2]
  · intro file td tt cat desc d hd hk
    rcases hk with hk | hk <;> simp [add_transaction, hd, hk]
  · intro file td tt q cat desc d hd hk
    refine ⟨?_, isCents_round2 q⟩
    rcases hk with hk | hk <;> simp [add_transaction, hd, hk]
  · have h0 : (add_transaction (some []) "2025-01-31" "EXPENSE" (.numeric 10) "Food" " note ").2 =
        .ok { date := ⟨2025, 1, 31⟩, kind := "expense", amount := round2 10,
              category := "Food", description := "note" } := rfl
    rw [h0]
    norm_num [round2, round_eq]

/-- Witness for C1 (amended): each validation branch at a concrete input
(including a bad kind together with a bad date). -/
theorem add_transaction_validation_spec_witness :
    (∃ e, (add_transaction (some []) "25-12-31" "food" (.numeric 3) "" "").2 =
      .error e)
  ∧ ((add_transaction (some []) "2025-01-31" "food" (.numeric 3) "" "").2 =
      .error .invalidKind)
  ∧ ((add_transaction (some []) "2025-01-31" "income" .nonNumeric "" "").2 =
      .error .invalidAmount)
  ∧ ((add_transaction (some []) "2025-01-31" " EXPENSE " (.numeric 3) " " " pens ").2 =
      .ok { date := ⟨2025, 1, 31⟩, kind := "expense", amount := round2 3,
            category := "uncategorized", description := "pens" }
      ∧ IsCents (round2 3)) :=
  ⟨add_transaction_validation_spec.1 (some []) "25-12-31" "food" (.numeric 3) "" ""
      (by decide) (by decide),
   add_transaction_validation_spec.2.1 (some []) "2025-01-31" "food" (.numeric 3) "" ""
      ⟨2025, 1, 31⟩ rfl (by decide) (by decide),
   add_transaction_validation_spec.2.2.1 (some []) "2025-01-31" "income" "" ""
      ⟨2025, 1, 31⟩ rfl (Or.inl (by decide)),
   add_transaction_validation_spec.2.2.2.1 (some []) "2025-01-31" " EXPENSE " 3 " " " pens "
      ⟨2025, 1, 31⟩ rfl (Or.inr (by decide))⟩

/-- C9: when `add_transaction` fails (bad date, kind, or amount) the
previously persisted rows are unchanged — the file is only rewritten,
appending exactly the validated row, on success — and
`ensure_csv_exists` never alters existing rows. -/
theorem add_transaction_preserves_rows (file : TxFile) (td tt : String)
    (amt : AmountInput) (cat desc : String) :
    (∀ e, (add_transaction file td tt amt cat desc).2 = .error e →
      (add_transaction file td tt amt cat desc).1 = ensure_csv_exists file)
  ∧ (∀ row, (add_transaction file td tt amt cat desc).2 = .ok row →
      (add_transaction file td tt amt cat desc).1 = ensure_csv_exists file ++ [row])
  ∧ (∀ rows, ensure_csv_exists (some rows) = rows) := by
  refine ⟨?_, ?_, fun rows => rfl⟩
  · intro e he
    rcases add_transaction_cases file td tt amt cat desc with ⟨d, _, _, q, _, heq⟩ | ⟨e2, heq⟩
    · rw [heq] at he
      simp at he
    · rw [heq]
  · intro row hrow
    rcases add_transaction_cases file td tt amt cat desc with ⟨d, _, _, q, _, heq⟩ | ⟨e2, heq⟩
    · rw [heq] at hrow ⊢
      simp only [Except.ok.injEq] at hrow
      rw [hrow]
    · rw [heq] at hrow
      simp at hrow

/-- Witness for C9: a failing and a succeeding call at concrete inputs. -/
theorem add_transaction_preserves_rows_witness :
    ((add_transaction (some [⟨⟨2025, 1, 1⟩, "income", 1, "c", ""⟩])
        "2025-01-31" "food" (.numeric 3) "" "").1 =
      ensure_csv_exists (some [⟨⟨2025, 1, 1⟩, "income", 1, "c", ""⟩]))
  ∧ ((add_transaction (some []) "2025-01-31" "income" (.numeric 3) "" "").1 =
      ensure_csv_exists (some []) ++
        [⟨⟨2025, 1, 31⟩, "income", round2 3, "uncategorized", ""⟩]) :=
  ⟨(add_transaction_preserves_rows (some [⟨⟨2025, 1, 1⟩, "income", 1, "c", ""⟩])
      "2025-01-31" "food" (.numeric 3) "" "").1 .invalidKind rfl,
   (add_transaction_preserves_rows (some []) "2025-01-31" "income" (.numeric 3) "" "").2.1
      ⟨⟨2025, 1, 31⟩, "income", round2 3, "uncategorized", ""⟩ rfl⟩

/-- C5: `weekly_summaries` returns exactly `weeks` entries, most recent
first (entry `i` covers the week starting `7*i` days before the Monday
of `today`'s week); each entry independently sums the income and
expense amounts of the records dated within its bucket, with net the
rounded difference of those sums; buckets containing no record have
income = expense = net = 0; and every monetary field is a 2-decimal
value. -/
theorem weekly_summaries_spec (records : List Record) (weeks : ℕ) (today : ℤ) :
    (weekly_summaries records weeks today).length = weeks
  ∧ (∀ i : ℕ, i < weeks →
      (weekly_summaries records weeks today)[i]? =
        some { week_start := (today - pyWeekday today) - 7 * (i : ℤ)
               week_end := (today - pyWeekday today) - 7 * (i : ℤ) + 6
               income := round2 (sumAmount ((records.filter
                   (inWeek ((today - pyWeekday today) - 7 * (i : ℤ)))).filter
                   (fun r => r.kind == "income")))
               expense := round2 (sumAmount ((records.filter
                   (inWeek ((today - pyWeekday today) - 7 * (i : ℤ)))).filter
                   (fun r => r.kind == "expense")))
               net := round2 ((sumAmount ((records.filter
                   (inWeek ((today - pyWeekday today) - 7 * (i : ℤ)))).filter
                   (fun r => r.kind == "income")))
                 - (sumAmount ((records.filter
                   (inWeek ((today - pyWeekday today) - 7 * (i : ℤ)))).filter
                   (fun r => r.kind == "expense")))) })
  ∧ (∀ i : ℕ, i < weeks →
      (∀ r ∈ records, inWeek ((today - pyWeekday today) - 7 * (i : ℤ)) r = false) →
      (weekly_summaries records weeks today)[i]? =
        some { week_start := (today - pyWeekday today) - 7 * (i : ℤ)
               week_end := (today - pyWeekday today) - 7 * (i : ℤ) + 6
               income := 0, expense := 0, net := 0 })
  ∧ (∀ s ∈ weekly_summaries records weeks today,
      IsCents s.income ∧ IsCents s.expense ∧ IsCents s.net) := by
  refine ⟨weekly_summaries_length records weeks today, ?_, ?_, ?_⟩
  · intro i hi
    rw [weekly_getElem records weeks today i hi, weekEntry_eq]
  · intro i hi hnone
    rw [weekly_getElem records weeks today i hi, weekEntry_eq]
    have h0 : records.filter (inWeek ((today - pyWeekday today) - 7 * (i : ℤ))) = [] :=
      List.filter_eq_nil_iff.mpr (fun r hr => by simp [hnone r hr])
    rw [h0]
    simp [sumAmount, round2_zero]
  · intro s hs
    simp only [weekly_summaries] at hs
    rcases List.mem_map.mp hs with ⟨i, _, rfl⟩
    rw [weekEntry_eq]
    exact ⟨isCents_round2 _, isCents_round2 _, isCents_round2 _⟩

/-- Witness for C5: a one-record store and an empty store, one week. -/
theorem weekly_summaries_spec_witness :
    ((weekly_summaries [⟨739414, "income", 3, "c", ""⟩] 1 739414)[0]? =
      some { week_start := 739411, week_end := 739417,
             income := round2 3, expense := 0, net := round2 3 })
  ∧ ((weekly_summaries [] 1 739414)[0]? =
      some { week_start := 739411, week_end := 739417,
             income := 0, expense := 0, net := 0 }) := by
  constructor
  · have h := (weekly_summaries_spec [⟨739414, "income", 3, "c", ""⟩] 1 739414).2.1 0
      (by decide)
    rw [h]
    simp [inWeek, pyWeekday, sumAmount, round2_zero]
  · exact (weekly_summaries_spec [] 1 739414).2.2.1 0 (by decide) (by simp)

/-- C8: consecutive weekly buckets are contiguous and non-overlapping —
each bucket's week_start is exactly 7 days before the next more recent
one and week_end = week_start + 6 — so every day of the covered span
lies in exactly one bucket; the membership mask counts a record dated
exactly on week_end and excludes one dated the day after. -/
theorem weekly_buckets_partition (records : List Record) (weeks : ℕ) (today : ℤ) :
    (∀ i : ℕ, i + 1 < weeks →
      ((weekly_summaries records weeks today)[i + 1]?).map WeeklySummary.week_start =
        ((weekly_summaries records weeks today)[i]?).map (fun s => s.week_start - 7))
  ∧ (∀ s ∈ weekly_summaries records weeks today, s.week_end = s.week_start + 6)
  ∧ (∀ d : ℤ, 0 < weeks →
      (today - pyWeekday today) - 7 * ((weeks : ℤ) - 1) ≤ d →
      d ≤ (today - pyWeekday today) + 6 →
      ∃! i : ℕ, ∃ s, (weekly_summaries records weeks today)[i]? = some s ∧
        s.week_start ≤ d ∧ d ≤ s.week_end)
  ∧ (∀ ws : ℤ, ∀ r : Record,
      (r.date = ws + 6 → inWeek ws r = true) ∧
      (r.date = ws + 7 → inWeek ws r = false)) := by
  refine ⟨?_, ?_, ?_, ?_⟩
  · intro i hi
    rw [weekly_getElem records weeks today (i + 1) hi,
        weekly_getElem records weeks today i (by omega)]
    simp only [Option.map_some', weekEntry_week_start, Option.some.injEq]
    push_cast
    ring
  · intro s hs
    simp only [weekly_summaries] at hs
    rcases List.mem_map.mp hs with ⟨i, _, rfl⟩
    rfl
  · intro d hw h1 h2
    have hne : ((today - pyWeekday today) + 6 - d) / 7 = (((((today - pyWeekday today) + 6 - d) / 7).toNat : ℕ) : ℤ) := by
      rw [Int.toNat_of_nonneg (Int.ediv_nonneg (by omega) (by norm_num))]
    have hlt : (((today - pyWeekday today) + 6 - d) / 7).toNat < weeks := by omega
    refine ⟨(((today - pyWeekday today) + 6 - d) / 7).toNat,
      ⟨weekEntry records ((today - pyWeekday today) -
          7 * ((((today - pyWeekday today) + 6 - d) / 7).toNat : ℤ)),
        weekly_getElem records weeks today _ hlt, ?_, ?_⟩, ?_⟩
    · rw [weekEntry_week_start]
      omega
    · rw [weekEntry_week_end]
      omega
    · rintro j ⟨s, hgs, hj1, hj2⟩
      have hjlt : j < weeks := by
        by_contra hge
        rw [List.getElem?_eq_none (by rw [weekly_summaries_length]; omega)] at hgs
        cases hgs
      rw [weekly_getElem records weeks today j hjlt] at hgs
      have hsj : s = weekEntry records ((today - pyWeekday today) - 7 * (j : ℤ)) :=
        (Option.some.injEq _ _ ▸ hgs).symm
      subst hsj
      rw [weekEntry_week_start] at hj1
      rw [weekEntry_week_end] at hj2
      omega
  · intro ws r
    refine ⟨fun h => ?_, fun h => ?_⟩
    · simp only [inWeek, h, Bool.and_eq_true, decide_eq_true_eq]
      omega
    · simp only [inWeek, h]
      have h1 : ¬ (ws + 7 ≤ ws + 6) := by omega
      simp [h1]

/-- Witness for C8 at weeks = 2 (and 1), today = 739414 (2025-06-12). -/
theorem weekly_buckets_partition_witness :
    (((weekly_summaries [] 2 739414)[0 + 1]?).map WeeklySummary.week_start =
      ((weekly_summaries [] 2 739414)[0]?).map (fun s => s.week_start - 7))
  ∧ ((weekEntry [] (739414 - pyWeekday 739414 - 7 * ((0 : ℕ) : ℤ))).week_end =
      (weekEntry [] (739414 - pyWeekday 739414 - 7 * ((0 : ℕ) : ℤ))).week_start + 6)
  ∧ (∃! i : ℕ, ∃ s, (weekly_summaries [] 2 739414)[i]? = some s ∧
      s.week_start ≤ 739405 ∧ 739405 ≤ s.week_end)
  ∧ (inWeek 100 ⟨106, "income", 1, "c", ""⟩ = true)
  ∧ (inWeek 100 ⟨107, "income", 1, "c", ""⟩ = false) := by
  refine ⟨?_, ?_, ?_, ?_, ?_⟩
  · exact (weekly_buckets_partition [] 2 739414).1 0 (by decide)
  · exact (weekly_buckets_partition [] 1 739414).2.1 _
      (by simp [weekly_summaries, show List.range 1 = [0] from rfl])
  · exact (weekly_buckets_partition [] 2 739414).2.2.1 739405
      (by decide) (by decide) (by decide)
  · exact ((weekly_buckets_partition [] 2 739414).2.2.2 100 ⟨106, "income", 1, "c", ""⟩).1 rfl
  · exact ((weekly_buckets_partition [] 2 739414).2.2.2 100 ⟨107, "income", 1, "c", ""⟩).2 rfl

/-- Two successive Boolean filters collapse to their conjunction. -/
theorem filter_filter_and (p q : Record → Bool) (l : List Record) :
    (l.filter p).filter q = l.filter (fun r => p r && q r) := by
  induction l with
  | nil => rfl
  | cons r t ih =>
    by_cases hp : p r <;> by_cases hq : q r <;>
      simp [List.filter_cons, hp, hq, ih]

/-- Evaluation of `category_summary` on a non-empty store once both
date filters are resolved. -/
theorem category_summary_eval (records : List Record) (sd ed : Option String)
    (tn : Option ℕ) (r1 r2 : List Record)
    (h1 : applyStartFilter records sd = .ok r1)
    (h2 : applyEndFilter r1 ed = .ok r2)
    (hne : records.isEmpty = false) :
    category_summary records sd ed tn =
      .ok (if truthyNat tn then
        (sortDesc (groupTotals (r2.filter (fun r => r.kind == "expense")))).take (tn.getD 0)
      else sortDesc (groupTotals (r2.filter (fun r => r.kind == "expense")))) := by
  unfold category_summary
  rw [if_neg (by simp [hne]), h1]
  simp only []
  rw [h2]

/-- `category_summary` with no date filters evaluates to the sorted,
possibly truncated, grouped expense totals of the whole record list. -/
theorem category_summary_none_eq (records : List Record) (tn : Option ℕ) :
    category_summary records none none tn =
      .ok (if truthyNat tn then
        (sortDesc (groupTotals (records.filter (fun r => r.kind == "expense")))).take (tn.getD 0)
      else sortDesc (groupTotals (records.filter (fun r => r.kind == "expense")))) := by
  rcases records with _ | ⟨r, t⟩
  · simp [category_summary, groupTotals, sortDesc, List.insertionSort]
  · exact category_summary_eval _ none none tn _ _ rfl rfl (by simp)

/-- The fully default call: no filtering, no truncation. -/
theorem category_summary_nononone_eq (records : List Record) :
    category_summary records none none none =
      .ok (sortDesc (groupTotals (records.filter (fun r => r.kind == "expense")))) :=
  category_summary_none_eq records none

/-- Inversion: a successful `category_summary` result is the possibly
truncated descending sort of grouped expense totals of some record
list. -/
theorem category_summary_ok_inv (records : List Record) (sd ed : Option String)
    (tn : Option ℕ) (l : List (String × ℚ))
    (h : category_summary records sd ed tn = .ok l) :
    l = [] ∨ ∃ base : List Record,
      l = (if truthyNat tn then
        (sortDesc (groupTotals (base.filter (fun r => r.kind == "expense")))).take (tn.getD 0)
      else sortDesc (groupTotals (base.filter (fun r => r.kind == "expense")))) := by
  by_cases he : records.isEmpty = true
  · left
    unfold category_summary at h
    rw [if_pos he] at h
    injection h with h
    exact h.symm
  · rcases h1 : applyStartFilter records sd with e | r1
    · exfalso
      unfold category_summary at h
      rw [if_neg he, h1] at h
      exact Except.noConfusion h
    · rcases h2 : applyEndFilter r1 ed with e | r2
      · exfalso
        unfold category_summary at h
        rw [if_neg he, h1] at h
        simp only [] at h
        rw [h2] at h
        exact Except.noConfusion h
      · right
        refine ⟨r2, ?_⟩
        rw [category_summary_eval records sd ed tn r1 r2 h1 h2
          (by simpa using he)] at h
        injection h with h
        exact h.symm

/-- C4: `category_summary` keeps only expense records within the
inclusive date bounds (each bound applied only when given), groups them
by category and sums amounts, orders the result descending by total,
truncates to the first `top_n` entries when a nonzero `top_n` is given,
returns an empty mapping for an empty store, and on the acceptance
example yields Food 150 and Travel 30 with Salary excluded; with a
nonzero `top_n` the result is exactly the `top_n`-entry prefix of the
untruncated result. -/
theorem category_summary_spec :
    (category_summary exampleRecords none none none = .ok [("Food", 150), ("Travel", 30)])
  ∧ (∀ sd ed tn, category_summary [] sd ed tn = .ok [])
  ∧ (∀ records sd ed tn l, category_summary records sd ed tn = .ok l →
      List.Sorted byAmountDesc l)
  ∧ (∀ records tn l c q, category_summary records none none tn = .ok l →
      (c, q) ∈ l →
      q = sumAmount (records.filter (fun r => r.kind == "expense" && r.category == c)))
  ∧ (∀ records l, category_summary records none none none = .ok l →
      ∀ c, (∃ q, (c, q) ∈ l) ↔ ∃ r ∈ records, r.kind = "expense" ∧ r.category = c)
  ∧ (∀ records sd ed n, n ≠ 0 →
      category_summary records sd ed (some n) =
        Except.map (fun l => l.take n) (category_summary records sd ed none))
  ∧ (∀ records s1 s2 d1 d2 tn, parse_date s1 = .ok d1 → parse_date s2 = .ok d2 →
      s1 ≠ "" → s2 ≠ "" →
      category_summary records (some s1) (some s2) tn =
        category_summary (records.filter (fun r =>
          decide (d1.toOrdinal ≤ r.date) && decide (r.date ≤ d2.toOrdinal))) none none tn) := by
  refine ⟨?_, ?_, ?_, ?_, ?_, ?_, ?_⟩
  · norm_num [category_summary, exampleRecords, applyStartFilter, applyEndFilter, groupTotals,
      sortDesc, sumAmount, List.insertionSort, List.orderedInsert, byAmountDesc, truthyNat,
      List.dedup, List.filter, List.map]
  · intro sd ed tn
    rfl
  · intro records sd ed tn l h
    rcases category_summary_ok_inv records sd ed tn l h with rfl | ⟨base, rfl⟩
    · exact List.sorted_nil
    · by_cases ht : truthyNat tn
      · rw [if_pos ht]
        exact List.Pairwise.sublist (List.take_sublist _ _) (sortDesc_sorted _)
      · rw [if_neg ht]
        exact sortDesc_sorted _
  · intro records tn l c q h hm
    rw [category_summary_none_eq records tn] at h
    injection h with h
    subst h
    have hmem : (c, q) ∈ sortDesc (groupTotals
        (records.filter (fun r => r.kind == "expense"))) := by
      by_cases ht : truthyNat tn
      · rw [if_pos ht] at hm
        exact List.mem_of_mem_take hm
      · rwa [if_neg ht] at hm
    have hval := groupTotals_mem_snd (sortDesc_mem.mp hmem)
    rw [filter_filter_and] at hval
    exact hval
  · intro records l h c
    rw [category_summary_nononone_eq records] at h
    injection h with h
    subst h
    constructor
    · rintro ⟨q, hq⟩
      rcases groupTotals_mem_key.mp ⟨q, sortDesc_mem.mp hq⟩ with ⟨r, hr, hrc⟩
      rcases List.mem_filter.mp hr with ⟨hrl, hrk⟩
      exact ⟨r, hrl, by simpa using hrk, hrc⟩
    · rintro ⟨r, hr, hk, hc⟩
      have hmemf : r ∈ records.filter (fun r => r.kind == "expense") :=
        List.mem_filter.mpr ⟨hr, by simp [hk]⟩
      rcases groupTotals_mem_key.mpr ⟨r, hmemf, hc⟩ with ⟨q, hq⟩
      exact ⟨q, sortDesc_mem.mpr hq⟩
  · intro records sd ed n hn
    by_cases he : records.isEmpty = true
    · have h0 : records = [] := List.isEmpty_iff.mp he
      subst h0
      simp [category_summary, Except.map, List.take_nil]
    · rcases h1 : applyStartFilter records sd with e | r1
      · have hL : category_summary records sd ed (some n) = .error e := by
          unfold category_summary
          rw [if_neg he, h1]
        have hR : category_summary records sd ed none = .error e := by
          unfold category_summary
          rw [if_neg he, h1]
        rw [hL, hR]
        rfl
      · rcases h2 : applyEndFilter r1 ed with e | r2
        · have hL : category_summary records sd ed (some n) = .error e := by
            unfold category_summary
            rw [if_neg he, h1]
            simp only []
            rw [h2]
          have hR : category_summary records sd ed none = .error e := by
            unfold category_summary
            rw [if_neg he, h1]
            simp only []
            rw [h2]
          rw [hL, hR]
          rfl
        · rw [category_summary_eval records sd ed (some n) r1 r2 h1 h2
              (by simpa using he),
            category_summary_eval records sd ed none r1 r2 h1 h2
              (by simpa using he)]
          rw [if_pos (by simp [truthyNat, hn])]
          rfl
  · intro records s1 s2 d1 d2 tn hp1 hp2 hs1 hs2
    have hA : applyStartFilter records (some s1) =
        .ok (records.filter (fun r => decide (d1.toOrdinal ≤ r.date))) := by
      simp only [applyStartFilter]
      rw [if_neg (by simpa using hs1), hp1]
    have hB : applyEndFilter (records.filter (fun r => decide (d1.toOrdinal ≤ r.date)))
        (some s2) =
        .ok ((records.filter (fun r => decide (d1.toOrdinal ≤ r.date))).filter
          (fun r => decide (r.date ≤ d2.toOrdinal))) := by
      simp only [applyEndFilter]
      rw [if_neg (by simpa using hs2), hp2]
    by_cases he : records.isEmpty = true
    · have h0 : records = [] := List.isEmpty_iff.mp he
      subst h0
      rfl
    · rw [category_summary_eval records (some s1) (some s2) tn _ _ hA hB
        (by simpa using he)]
      simp only [filter_filter_and (fun r => decide (d1.toOrdinal ≤ r.date))
        (fun r => decide (r.date ≤ d2.toOrdinal)) records]
      by_cases he2 : (records.filter (fun r =>
          decide (d1.toOrdinal ≤ r.date) && decide (r.date ≤ d2.toOrdinal))).isEmpty = true
      · have h0 : records.filter (fun r =>
            decide (d1.toOrdinal ≤ r.date) && decide (r.date ≤ d2.toOrdinal)) = [] :=
          List.isEmpty_iff.mp he2
        rw [h0]
        simp [category_summary, groupTotals, sortDesc, List.insertionSort]
      · rw [category_summary_eval _ none none tn _ _ rfl rfl (by simpa using he2)]

/-- Witness for C4: each hypothesis-bearing conjunct instantiated, using
the acceptance example where applicable. -/
theorem category_summary_spec_witness :
    List.Sorted byAmountDesc [("Food", (150 : ℚ)), ("Travel", 30)]
  ∧ ((150 : ℚ) = sumAmount (exampleRecords.filter
      (fun r => r.kind == "expense" && r.category == "Food")))
  ∧ ((∃ q, ("Food", q) ∈ [("Food", (150 : ℚ)), ("Travel", 30)]) ↔
      ∃ r ∈ exampleRecords, r.kind = "expense" ∧ r.category = "Food")
  ∧ (category_summary [] none none (some 3) =
      Except.map (fun l => l.take 3) (category_summary [] none none none))
  ∧ (category_summary [] (some "2025-01-01") (some "2025-12-31") none =
      category_summary (([] : List Record).filter (fun r =>
        decide ((Date.mk 2025 1 1).toOrdinal ≤ r.date) &&
        decide (r.date ≤ (Date.mk 2025 12 31).toOrdinal))) none none none) := by
  refine ⟨?_, ?_, ?_, ?_, ?_⟩
  · exact category_summary_spec.2.2.1 exampleRecords none none none _
      category_summary_spec.1
  · exact category_summary_spec.2.2.2.1 exampleRecords none _ "Food" 150
      category_summary_spec.1 (List.mem_cons_self _ _)
  · exact category_summary_spec.2.2.2.2.1 exampleRecords _
      category_summary_spec.1 "Food"
  · exact category_summary_spec.2.2.2.2.2.1 [] none none 3 (by decide)
  · exact category_summary_spec.2.2.2.2.2.2 [] "2025-01-01" "2025-12-31"
      (Date.mk 2025 1 1) (Date.mk 2025 12 31) none rfl rfl (by decide) (by decide)

/-- C7: with no filters and no truncation the per-category totals sum
to the sum of all expense-type amounts. -/
theorem category_summary_total_invariant (records : List Record)
    (l : List (String × ℚ)) (h : category_summary records none none none = .ok l) :
    (l.map Prod.snd).sum = sumAmount (records.filter (fun r => r.kind == "expense")) := by
  rw [category_summary_nononone_eq records] at h
  injection h with h
  subst h
  rw [sortDesc_snd_sum, groupTotals_sum]

/-- Witness for C7 at a two-record store (one expense, one income). -/
theorem category_summary_total_invariant_witness :
    (([("g", (7 : ℚ))]).map Prod.snd).sum =
      sumAmount ([⟨739252, "expense", 7, "g", ""⟩,
                  ⟨739253, "income", 2, "s", ""⟩].filter
        (fun r => r.kind == "expense")) :=
  category_summary_total_invariant
    [⟨739252, "expense", 7, "g", ""⟩, ⟨739253, "income", 2, "s", ""⟩] [("g", 7)]
    (by simp [category_summary, applyStartFilter, applyEndFilter, groupTotals,
      sortDesc, sumAmount, List.insertionSort, truthyNat, List.dedup,
      List.filter, List.map])

/-- C10: the optional arguments of `category_summary` act only when
truthy: `top_n = 0` yields the full untruncated mapping (not an empty
result), and `None` or `""` for a date bound applies no filter on that
side. -/
theorem category_summary_truthy_spec :
    (∀ records sd ed, category_summary records sd ed (some 0) =
      category_summary records sd ed none)
  ∧ (∀ records ed tn, category_summary records (some "") ed tn =
      category_summary records none ed tn)
  ∧ (∀ records sd tn, category_summary records sd (some "") tn =
      category_summary records sd none tn)
  ∧ category_summary exampleRecords none none (some 0) =
      .ok [("Food", 150), ("Travel", 30)] := by
  refine ⟨fun records sd ed => rfl, fun records ed tn => rfl,
    fun records sd tn => rfl, ?_⟩
  norm_num [category_summary, exampleRecords, applyStartFilter, applyEndFilter,
    groupTotals, sortDesc, sumAmount, List.insertionSort, List.orderedInsert,
    byAmountDesc, truthyNat, List.dedup, List.filter, List.map]
